import Mathlib

/-!
Verification of the cloudstack-cloudmonkey command resolution/dispatch engine
and the file-upload subsystem, shallowly embedded in Lean 4.

The embedding follows the Go sources:
* the `api` catch-all command handler (resolution, `-h` short-circuit,
  required-argument validation),
* the upload orchestration (`ValidateAndGetFileList`,
  `PromptAndUploadFilesIfNeeded`, `UploadFiles`),
* the progress-bar renderer `barArrow`,
* the spinner controller (`PauseActiveSpinners`, `ResumePausedSpinners`,
  `StopSpinner`).

External I/O (registry population, the network call of a single file upload,
stat of a path, terminal animation) is abstracted as explicit function
parameters (`cache`, `outcome`, `pathExists`) or as event traces.

The Go standard-library string operations used by the sources are embedded
as executable functions over `String.data` (`List Char`), so that every
definition evaluates inside the kernel.
-/

/-- Go `strings.Contains(s, "=")`, specialised to the one-character pattern
the handler uses. -/
def containsEq (s : String) : Bool :=
  s.data.any (fun c => c == '=')

/-- Go `strings.HasPrefix(s, pre)` (argument order: pattern first). -/
def goStartsWith (pre s : String) : Bool :=
  pre.data.isPrefixOf s.data

/-- Go `strings.ReplaceAll(s, "=", "")` for the one-character pattern: drop
every `'='`. -/
def removeAllEq (s : String) : String :=
  ⟨s.data.filter (fun c => c != '=')⟩

/-- Go `strings.ToLower` restricted to the ASCII range (the registry keys
and API names are ASCII). -/
def goToLower (s : String) : String :=
  ⟨s.data.map Char.toLower⟩

/-- Whitespace recognised by Go `strings.TrimSpace` (ASCII subset). -/
def isSpaceChar (c : Char) : Bool :=
  c == ' ' || c == '\t' || c == '\n' || c == '\x0b' || c == '\x0c' || c == '\r'

/-- Go `strings.TrimSpace`. -/
def goTrimSpace (s : String) : String :=
  ⟨((s.data.dropWhile isSpaceChar).reverse.dropWhile isSpaceChar).reverse⟩

/-- Helper of `splitComma`: accumulates the current field in reverse. -/
def splitCommaAux : List Char → List Char → List String
  | [], acc => [⟨acc.reverse⟩]
  | c :: rest, acc =>
    if c == ',' then ⟨acc.reverse⟩ :: splitCommaAux rest []
    else splitCommaAux rest (c :: acc)

/-- Splitting a string at every `','` (keeping empty fields).  The sources
use `strings.FieldsFunc(s, r == ',')`, which drops empty fields, but every
use trims each field and drops empty results afterwards, so the composite
behaviour is identical. -/
def splitComma (s : String) : List String :=
  splitCommaAux s.data []

/-- A registered API/command as held in the registry cache: its canonical
name, the required-argument tokens (e.g. `"id="`) and the async flag.
Embeds the fields of `config.API` used by the `api` handler. -/
structure API where
  name : String
  requiredArgs : List String
  async : Bool
deriving DecidableEq

/-- Command resolution step of the `api` handler:
`apiName := strings.ToLower(r.Args[0]); apiArgs := r.Args[1:]` and the
two-token merge fallback
`if cache[apiName] == nil && len(r.Args) > 1 { apiName = ToLower(Join(r.Args[:2], "")); apiArgs = r.Args[2:] }`.
Returns the candidate registry key and the remaining argument tokens. -/
def resolveAPIName (cache : String → Option API) : List String → String × List String
  | [] => ("", [])
  | [a0] => (goToLower a0, [])
  | a0 :: a1 :: rest =>
    let apiName := goToLower a0
    if (cache apiName).isNone then (goToLower (a0 ++ a1), rest)
    else (apiName, a1 :: rest)

/-- Required-argument validation loop of the `api` handler:
for each `required` in `api.RequiredArgs`, strip every `"="`
(`strings.ReplaceAll(required, "=", "")`), mark it provided when some
remaining token contains `'='` and has the stripped name as a prefix
(`strings.Contains(arg, "=") && strings.HasPrefix(arg, required)`), and
otherwise append `strings.Replace(required, "=", "", -1)` to the missing
list. -/
def missingArgs : List String → List String → List String
  | [], _ => []
  | required0 :: rest, apiArgs =>
    let required := removeAllEq required0
    let provided := apiArgs.any (fun arg => containsEq arg && goStartsWith required arg)
    if provided then missingArgs rest apiArgs
    else removeAllEq required :: missingArgs rest apiArgs

/-- Outcome of the `api` handler, up to (and including) the decision to
invoke the remote API. -/
inductive HandleOutcome where
  | errNoArgs
  | help (apiName : String)
  | errUnknown
  | missingParams (missing : List String)
  | invoke (api : API) (apiArgs : List String)
deriving DecidableEq

/-- The `api` command handler (`apiCommand.Handle`): empty-argument check,
name resolution with two-token merge, `-h` short-circuit over the full raw
token list, registry lookup, required-argument validation, and finally the
API invocation with the remaining tokens. -/
def apiHandle (cache : String → Option API) (args : List String) : HandleOutcome :=
  if args.isEmpty then .errNoArgs
  else
    let res := resolveAPIName cache args
    if args.contains "-h" then .help res.1
    else
      match cache res.1 with
      | none => .errUnknown
      | some api =>
        let missing := missingArgs api.requiredArgs res.2
        if missing.isEmpty then .invoke api res.2
        else .missingParams missing

/-- Modelled from the claim's words (refinement comparison only): the
required name is the registry token with its *trailing* `=` stripped. -/
def stripTrailingEq (s : String) : String :=
  if s.data.getLast? == some '=' then ⟨s.data.dropLast⟩ else s

/-- Modelled from the claim's words (refinement comparison only): the
missing-argument list computed with trailing-`=` stripping instead of the
code's remove-every-`=`. -/
def missingArgsSpec (requiredArgs apiArgs : List String) : List String :=
  requiredArgs.filterMap (fun r =>
    if apiArgs.any (fun a => containsEq a && goStartsWith (stripTrailingEq r) a) then none
    else some (stripTrailingEq r))

/-- Example registry for the resolver theorems: only the merged key
`"listvms"` is registered. -/
def exCacheMerge : String → Option API :=
  fun s => if s = "listvms" then some ⟨"listVMs", [], false⟩ else none

/-- Example registry for the validator theorems: the command `"create"`
requires `id=` and `name=`. -/
def exCacheCreate : String → Option API :=
  fun s => if s = "create" then some ⟨"create", ["id=", "name="], false⟩ else none

/-- C1: if the lower-cased first token is not a registered command and at
least two tokens were supplied, the resolver concatenates the first two
tokens with no separator, lower-cases the result, and retries the registry
lookup; on success it selects that command and passes only the tokens after
the first two as arguments. -/
theorem c1_two_token_merge (cache : String → Option API) (t1 t2 : String)
    (rest : List String) (api : API)
    (h1 : cache (goToLower t1) = none)
    (h2 : cache (goToLower (t1 ++ t2)) = some api) :
    resolveAPIName cache (t1 :: t2 :: rest) = (goToLower (t1 ++ t2), rest) ∧
    ((t1 :: t2 :: rest).contains "-h" = false →
      missingArgs api.requiredArgs rest = [] →
      apiHandle cache (t1 :: t2 :: rest) = .invoke api rest) := by
  have hres : resolveAPIName cache (t1 :: t2 :: rest) = (goToLower (t1 ++ t2), rest) := by
    simp [resolveAPIName, h1]
  refine ⟨hres, fun hh hm => ?_⟩
  simp only [apiHandle, hres, hh, List.isEmpty_cons, Bool.false_eq_true, if_false, h2, hm,
    List.isEmpty_nil, if_true]

theorem c1_two_token_merge_witness :
    resolveAPIName exCacheMerge ["list", "VMs", "id=1"] = ("listvms", ["id=1"]) ∧
    apiHandle exCacheMerge ["list", "VMs", "id=1"] =
      .invoke ⟨"listVMs", [], false⟩ ["id=1"] := by
  have h := c1_two_token_merge exCacheMerge "list" "VMs" ["id=1"]
    ⟨"listVMs", [], false⟩ (by decide) (by decide)
  have e : goToLower ("list" ++ "VMs") = "listvms" := by decide
  exact ⟨e ▸ h.1, h.2 (by decide) (by decide)⟩

/-- C2 counterexample: the code strips every `=` from the registry token
(`ReplaceAll`), not just a trailing one.  On the registry token `"a=b="`
with the supplied token `"a=b=1"`, the claim's rule (required name
`"a=b"`, trailing `=` stripped) declares the argument provided, yet the
validator reports `"ab"` as missing. -/
theorem c2_counterexample :
    missingArgs ["a=b="] ["a=b=1"] = ["ab"] ∧
    missingArgsSpec ["a=b="] ["a=b=1"] = [] ∧
    missingArgs ["a=b="] ["a=b=1"] ≠ missingArgsSpec ["a=b="] ["a=b=1"] := by
  refine ⟨by decide, by decide, by decide⟩

/-- C2 (amended): the validator reports, in registry order, each required
argument with every `=` removed, exactly when no remaining token both
contains an `=` and starts with that stripped name (prefix match, so
`idx=5` satisfies a requirement named `id`); for required arguments
`{"id=", "name="}` with tokens `["id=5"]` exactly `["name"]` is reported
missing, and in that case the handler stops with the missing list instead
of invoking the API. -/
theorem c2_required_args_amended :
    (∀ req args, missingArgs req args = req.filterMap (fun r =>
      if args.any (fun a => containsEq a && goStartsWith (removeAllEq r) a) then none
      else some (removeAllEq (removeAllEq r)))) ∧
    missingArgs ["id=", "name="] ["id=5"] = ["name"] ∧
    missingArgs ["id="] ["idx=5"] = [] ∧
    apiHandle exCacheCreate ["create", "id=5"] = .missingParams ["name"] := by
  refine ⟨fun req args => ?_, by decide, by decide, by decide⟩
  induction req with
  | nil => rfl
  | cons r rest ih =>
    by_cases h : (args.any fun a => containsEq a && goStartsWith (removeAllEq r) a) = true
    · simp only [missingArgs, List.filterMap_cons, h, if_true, ih]
    · simp only [missingArgs, List.filterMap_cons, h, if_false, ih,
        Bool.not_eq_true] at *
      simp [h, ih]

/-- A value of the string-keyed API response map (`map[string]interface{}`).
The `dict` constructor corresponds to a value whose reflected kind is
`reflect.Map`; `null` is Go's untyped nil (a JSON `null` decoded into the
interface), for which `reflect.TypeOf` returns a nil `reflect.Type`. -/
inductive RVal where
  | null
  | str (s : String)
  | num (n : Int)
  | dict (entries : List (String × RVal))
  | arr (elems : List RVal)

/-- Lookup of a key in a response map (`v, ok := m[key]`). -/
def lookupKey : List (String × RVal) → String → Option RVal
  | [], _ => none
  | (k, v) :: rest, key => if k = key then some v else lookupKey rest key

/-- Whether the reflected kind of a value is `reflect.Map`. -/
def isDictV : RVal → Bool
  | .dict _ => true
  | _ => false

/-- The required upload-credential keys, in the order the code checks them:
`requiredKeys := []string{"postURL", "metadata", "signature", "expires"}`. -/
def requiredKeys : List String := ["postURL", "metadata", "signature", "expires"]

/-- The first required key absent from `params`, if any (the code's check
loop returns at the first missing key). -/
def firstMissingKey (params : List (String × RVal)) : List String → Option String
  | [] => none
  | k :: rest => if (lookupKey params k).isNone then some k else firstMissingKey params rest

/-- The two ways `UploadFiles` aborts before touching any file: the
`getuploadparams` value is absent or not a map, or a required key is
missing from it. -/
inductive UploadAbort where
  | invalidResponseFormat
  | missingKey (k : String)
deriving DecidableEq

/-- Result of the pre-batch credential validation: a graceful abort, a
runtime panic, or success. -/
inductive ParamsCheck where
  | valid
  | abort (a : UploadAbort)
  | panicNilType
deriving DecidableEq

/-- The credential validation `UploadFiles` performs before the batch:
`paramsRaw, ok := response["getuploadparams"];
if !ok || reflect.TypeOf(paramsRaw).Kind() != reflect.Map` aborts, then
each key of `requiredKeys` must be present.  The `||` short-circuits, so
an absent key aborts gracefully; but when the key is present with a nil
value, `reflect.TypeOf(paramsRaw)` is a nil `reflect.Type` and the
`.Kind()` call panics with a nil-pointer dereference. -/
def checkUploadParams (response : List (String × RVal)) : ParamsCheck :=
  match lookupKey response "getuploadparams" with
  | none => .abort .invalidResponseFormat
  | some .null => .panicNilType
  | some (.dict params) =>
    match firstMissingKey params requiredKeys with
    | some k => .abort (.missingKey k)
    | none => .valid
  | some _ => .abort .invalidResponseFormat

/-- Observable events of the upload flow: the pre-batch abort, the
runtime panic of the nil-value kind check (which crashes the process
before any file I/O), the missing-file and no-valid-file reports of the
prompt flow, the per-file upload attempt and failure, and the final
summary line. -/
inductive UploadEvent where
  | abort (a : UploadAbort)
  | panicked
  | missingFilesErr (files : List String)
  | noValidFiles
  | attempt (file : String)
  | fileError (file : String)
  | summary (line : String)
deriving DecidableEq

/-- The final summary of `UploadFiles`:
`"🙈 %d out of %d files failed to upload.\n"` when `errored > 0`, and
`"All files uploaded successfully."` otherwise. -/
def summaryLine (errored total : Nat) : String :=
  if errored > 0 then
    "🙈 " ++ toString errored ++ " out of " ++ toString total ++ " files failed to upload."
  else "All files uploaded successfully."

/-- The per-file loop of `UploadFiles`: every file is attempted in order;
a failed upload (`outcome f = false`, i.e. transport error or non-2xx
status) is recorded and the error counter incremented, and the loop
continues with the next file.  Returns the event trace and the final
error count. -/
def uploadLoop (outcome : String → Bool) : List String → List UploadEvent × Nat
  | [] => ([], 0)
  | f :: rest =>
    let r := uploadLoop outcome rest
    if outcome f then (.attempt f :: r.1, r.2)
    else (.attempt f :: .fileError f :: r.1, r.2 + 1)

/-- `UploadFiles`: validate the upload credentials once, before the batch;
a failed check aborts (or, for a nil `getuploadparams` value, panics) with
no file I/O, otherwise the per-file loop runs and the summary is printed. -/
def uploadFiles (response : List (String × RVal)) (validFiles : List String)
    (outcome : String → Bool) : List UploadEvent :=
  match checkUploadParams response with
  | .abort a => [.abort a]
  | .panicNilType => [.panicked]
  | .valid =>
    let r := uploadLoop outcome validFiles
    r.1 ++ [.summary (summaryLine r.2 validFiles.length)]

/-- `ValidateAndGetFileList`: split the comma-separated input, trim each
entry, skip entries empty after trimming, and partition the rest by
existence; a non-empty missing set aborts with exactly that set. -/
def validateAndGetFileList (pathExists : String → Bool) (filePaths : String) :
    Except (List String) (List String) :=
  let entries := ((splitComma filePaths).map goTrimSpace).filter (fun p => p != "")
  let missingFiles := entries.filter (fun p => ! pathExists p)
  let validFiles := entries.filter (fun p => pathExists p)
  if ! missingFiles.isEmpty then .error missingFiles else .ok validFiles

/-- The tail of `PromptAndUploadFilesIfNeeded` after the path prompt was
answered with `filePaths`: empty input skips, invalid paths abort with the
missing-file report, an all-empty list reports no valid files, and
otherwise `UploadFiles` runs. -/
def promptAndUploadAfterInput (pathExists : String → Bool) (filePaths : String)
    (response : List (String × RVal)) (outcome : String → Bool) : List UploadEvent :=
  if filePaths = "" then []
  else
    match validateAndGetFileList pathExists filePaths with
    | .error missing => [.missingFilesErr missing]
    | .ok valid =>
      if valid.isEmpty then [.noValidFiles]
      else uploadFiles response valid outcome

/-- The files attempted by a trace, in order. -/
def attemptsOf : List UploadEvent → List String
  | [] => []
  | .attempt f :: rest => f :: attemptsOf rest
  | _ :: rest => attemptsOf rest

theorem uploadLoop_attempts (outcome : String → Bool) (files : List String) :
    attemptsOf (uploadLoop outcome files).1 = files := by
  induction files with
  | nil => rfl
  | cons f rest ih => cases h : outcome f <;> simp [uploadLoop, h, attemptsOf, ih]

theorem uploadLoop_errored (outcome : String → Bool) (files : List String) :
    (uploadLoop outcome files).2 = (files.filter (fun f => ! outcome f)).length := by
  induction files with
  | nil => rfl
  | cons f rest ih => cases h : outcome f <;> simp [uploadLoop, h, List.filter_cons, ih]

theorem uploadLoop_fileError_mem (outcome : String → Bool) (files : List String)
    (f : String) (hf : f ∈ files) (hfail : outcome f = false) :
    UploadEvent.fileError f ∈ (uploadLoop outcome files).1 := by
  induction files with
  | nil => cases hf
  | cons g rest ih =>
    rcases List.mem_cons.mp hf with hg | hg
    · subst hg
      simp [uploadLoop, hfail]
    · cases h : outcome g with
      | true =>
        simp only [uploadLoop, h, if_true, List.mem_cons]
        exact Or.inr (ih hg)
      | false =>
        simp only [uploadLoop, h, Bool.false_eq_true, if_false, List.mem_cons]
        exact Or.inr (Or.inr (ih hg))

theorem uploadLoop_no_abort (outcome : String → Bool) (files : List String)
    (a : UploadAbort) : UploadEvent.abort a ∉ (uploadLoop outcome files).1 := by
  induction files with
  | nil => simp [uploadLoop]
  | cons f rest ih => cases h : outcome f <;> simp [uploadLoop, h, ih]

theorem firstMissingKey_isSome (entries : List (String × RVal)) (keys : List String)
    (k : String) (hk : k ∈ keys) (hmiss : lookupKey entries k = none) :
    ∃ k', firstMissingKey entries keys = some k' := by
  induction keys with
  | nil => cases hk
  | cons k0 restKeys ih =>
    by_cases h0 : (lookupKey entries k0).isNone = true
    · refine ⟨k0, ?_⟩
      simp only [firstMissingKey]
      rw [if_pos h0]
    · rcases List.mem_cons.mp hk with hkk | hkk
      · subst hkk
        rw [hmiss] at h0
        exact absurd rfl h0
      · rcases ih hkk with ⟨k', hk'⟩
        refine ⟨k', ?_⟩
        simp only [firstMissingKey]
        rw [if_neg h0]
        exact hk'

/-- Well-formed upload-credential response used by the batch examples. -/
def exResponseOK : List (String × RVal) :=
  [("getuploadparams", RVal.dict
    [("postURL", .str "https://e/upload"), ("metadata", .str "m"),
     ("signature", .str "s"), ("expires", .str "x")])]

/-- Upload-credential response with the `signature` key absent. -/
def exResponseNoSig : List (String × RVal) :=
  [("getuploadparams", RVal.dict
    [("postURL", .str "https://e/upload"), ("metadata", .str "m"),
     ("expires", .str "x")])]

/-- Upload outcome where exactly the file `"f2"` fails. -/
def exOutcomeFail2 : String → Bool := fun f => f != "f2"

/-- C3 counterexample: in a batch of three where file 2 fails, every file
is still attempted, but the final summary line is
`"🙈 1 out of 3 files failed to upload."`, not the claimed exact form
`"1 of 3 files failed to upload."`. -/
theorem c3_counterexample :
    uploadFiles exResponseOK ["f1", "f2", "f3"] exOutcomeFail2 =
      [.attempt "f1", .attempt "f2", .fileError "f2", .attempt "f3",
       .summary "🙈 1 out of 3 files failed to upload."] ∧
    summaryLine 1 3 = "🙈 1 out of 3 files failed to upload." ∧
    summaryLine 1 3 ≠ "1 of 3 files failed to upload." := by
  refine ⟨by decide, by decide, by decide⟩

/-- C3 (amended): files are processed strictly in order; a per-file failure
is recorded, counted, and never prevents later attempts; with k > 0
failures out of n files the summary is
`"🙈 k out of n files failed to upload."`, otherwise
`"All files uploaded successfully."`. -/
theorem c3_batch_amended (response : List (String × RVal)) (files : List String)
    (outcome : String → Bool) (hok : checkUploadParams response = .valid) :
    uploadFiles response files outcome =
      (uploadLoop outcome files).1 ++
        [.summary (summaryLine (uploadLoop outcome files).2 files.length)] ∧
    attemptsOf (uploadLoop outcome files).1 = files ∧
    (∀ f ∈ files, outcome f = false →
      UploadEvent.fileError f ∈ (uploadLoop outcome files).1) ∧
    (uploadLoop outcome files).2 = (files.filter (fun f => ! outcome f)).length ∧
    (∀ k n : Nat, 0 < k →
      summaryLine k n =
        "🙈 " ++ toString k ++ " out of " ++ toString n ++ " files failed to upload.") ∧
    summaryLine 0 files.length = "All files uploaded successfully." := by
  refine ⟨?_, uploadLoop_attempts outcome files,
    fun f hf hfail => uploadLoop_fileError_mem outcome files f hf hfail,
    uploadLoop_errored outcome files, fun k n hk => ?_, rfl⟩
  · simp only [uploadFiles, hok]
  · simp only [summaryLine]
    rw [if_pos hk]

theorem c3_batch_amended_witness :
    uploadFiles exResponseOK ["f1", "f2", "f3"] exOutcomeFail2 =
      (uploadLoop exOutcomeFail2 ["f1", "f2", "f3"]).1 ++
        [.summary (summaryLine (uploadLoop exOutcomeFail2 ["f1", "f2", "f3"]).2 3)] ∧
    attemptsOf (uploadLoop exOutcomeFail2 ["f1", "f2", "f3"]).1 = ["f1", "f2", "f3"] ∧
    UploadEvent.fileError "f2" ∈ (uploadLoop exOutcomeFail2 ["f1", "f2", "f3"]).1 ∧
    summaryLine 1 3 = "🙈 " ++ toString 1 ++ " out of " ++ toString 3 ++
      " files failed to upload." := by
  have h := c3_batch_amended exResponseOK ["f1", "f2", "f3"] exOutcomeFail2 rfl
  exact ⟨h.1, h.2.1, h.2.2.1 "f2" (by decide) rfl, h.2.2.2.2.1 1 3 (by decide)⟩

/-- Upload-credential response whose `getuploadparams` value is JSON
`null` (Go untyped nil). -/
def exResponseNull : List (String × RVal) := [("getuploadparams", RVal.null)]

theorem uploadLoop_no_panic (outcome : String → Bool) (files : List String) :
    UploadEvent.panicked ∉ (uploadLoop outcome files).1 := by
  induction files with
  | nil => simp [uploadLoop]
  | cons f rest ih => cases h : outcome f <;> simp [uploadLoop, h, ih]

/-- C4 counterexample: with `getuploadparams` present but `null` — a value
that is not a mapping — the program does not abort with the
`InvalidUploadParams` report: `reflect.TypeOf(nil).Kind()` panics and the
process crashes (still before any file is opened). -/
theorem c4_counterexample :
    isDictV RVal.null = false ∧
    lookupKey exResponseNull "getuploadparams" = some RVal.null ∧
    uploadFiles exResponseNull ["f1"] (fun _ => true) = [UploadEvent.panicked] ∧
    UploadEvent.abort UploadAbort.invalidResponseFormat ∉
      uploadFiles exResponseNull ["f1"] (fun _ => true) ∧
    UploadEvent.attempt "f1" ∉ uploadFiles exResponseNull ["f1"] (fun _ => true) := by
  refine ⟨rfl, rfl, rfl, by decide, by decide⟩

/-- C4 (amended): when the `getuploadparams` key is absent, its value is a
non-null value that is not a map, or one of the four required credential
fields is missing, the whole batch aborts with the `InvalidUploadParams`
report before any file is attempted; when the value is `null` the kind
check panics instead, likewise before any file is attempted; and when the
credentials validate, neither an abort nor a panic occurs anywhere in the
batch (the validation happens once, before the first file). -/
theorem c4_invalid_params_amended (response : List (String × RVal)) (files : List String)
    (outcome : String → Bool) :
    ((lookupKey response "getuploadparams" = none
        ∨ (∃ v, lookupKey response "getuploadparams" = some v ∧ isDictV v = false ∧
            v ≠ RVal.null)
        ∨ (∃ entries k, lookupKey response "getuploadparams" = some (RVal.dict entries) ∧
            k ∈ requiredKeys ∧ lookupKey entries k = none)) →
      (∃ a, uploadFiles response files outcome = [UploadEvent.abort a]) ∧
      ∀ f, UploadEvent.attempt f ∉ uploadFiles response files outcome) ∧
    (lookupKey response "getuploadparams" = some RVal.null →
      uploadFiles response files outcome = [UploadEvent.panicked] ∧
      ∀ f, UploadEvent.attempt f ∉ uploadFiles response files outcome) ∧
    (checkUploadParams response = .valid →
      (∀ a, UploadEvent.abort a ∉ uploadFiles response files outcome) ∧
      UploadEvent.panicked ∉ uploadFiles response files outcome) := by
  have habort : ∀ a, checkUploadParams response = .abort a →
      uploadFiles response files outcome = [UploadEvent.abort a] := by
    intro a ha
    simp only [uploadFiles, ha]
  refine ⟨?_, ?_, ?_⟩
  · intro hbad
    have hsome : ∃ a, checkUploadParams response = ParamsCheck.abort a := by
      rcases hbad with h | ⟨v, hv, hnd, hnn⟩ | ⟨entries, k, he, hk, hmiss⟩
      · exact ⟨.invalidResponseFormat, by simp [checkUploadParams, h]⟩
      · cases v with
        | null => exact absurd rfl hnn
        | dict params => simp [isDictV] at hnd
        | str s => exact ⟨.invalidResponseFormat, by simp [checkUploadParams, hv]⟩
        | num n => exact ⟨.invalidResponseFormat, by simp [checkUploadParams, hv]⟩
        | arr elems => exact ⟨.invalidResponseFormat, by simp [checkUploadParams, hv]⟩
      · rcases firstMissingKey_isSome entries requiredKeys k hk hmiss with ⟨k', hk'⟩
        exact ⟨.missingKey k', by simp [checkUploadParams, he, hk']⟩
    rcases hsome with ⟨a, ha⟩
    refine ⟨⟨a, habort a ha⟩, fun f => ?_⟩
    rw [habort a ha]
    simp
  · intro hnull
    have hp : uploadFiles response files outcome = [UploadEvent.panicked] := by
      simp only [uploadFiles, checkUploadParams, hnull]
    refine ⟨hp, fun f => ?_⟩
    rw [hp]
    simp
  · intro hok
    constructor
    · intro a
      simp only [uploadFiles, hok, List.mem_append, List.mem_singleton]
      rintro (h | h)
      · exact uploadLoop_no_abort outcome files a h
      · exact UploadEvent.noConfusion h
    · simp only [uploadFiles, hok, List.mem_append, List.mem_singleton]
      rintro (h | h)
      · exact uploadLoop_no_panic outcome files h
      · exact UploadEvent.noConfusion h

theorem c4_invalid_params_witness :
    (∃ a, uploadFiles exResponseNoSig ["f1"] (fun _ => true) = [UploadEvent.abort a]) ∧
    UploadEvent.attempt "f1" ∉ uploadFiles exResponseNoSig ["f1"] (fun _ => true) ∧
    uploadFiles exResponseNull ["f2"] (fun _ => true) = [UploadEvent.panicked] ∧
    UploadEvent.abort UploadAbort.invalidResponseFormat ∉
      uploadFiles exResponseOK ["f1"] (fun _ => true) ∧
    UploadEvent.panicked ∉ uploadFiles exResponseOK ["f1"] (fun _ => true) := by
  have h := (c4_invalid_params_amended exResponseNoSig ["f1"] (fun _ => true)).1
    (Or.inr (Or.inr ⟨[("postURL", RVal.str "https://e/upload"),
      ("metadata", RVal.str "m"), ("expires", RVal.str "x")],
      "signature", rfl, by decide, rfl⟩))
  have hn := (c4_invalid_params_amended exResponseNull ["f2"] (fun _ => true)).2.1 rfl
  have h2 := (c4_invalid_params_amended exResponseOK ["f1"] (fun _ => true)).2.2 rfl
  exact ⟨h.1, h.2 "f1", hn.1, h2.1 UploadAbort.invalidResponseFormat, h2.2⟩

/-- Existence oracle for the path-validation example: only `"a.txt"`
exists. -/
def exPathExists : String → Bool := fun p => p == "a.txt"

/-- C5: path validation splits on commas, trims, drops entries empty after
trimming, and aborts the whole batch with exactly the non-existing paths
when any remain; on `" a.txt, ,b.txt "` with only `a.txt` existing the
report is exactly `["b.txt"]` and nothing is uploaded. -/
theorem c5_validate_files :
    (∀ (pathExists : String → Bool) (s : String),
      ((((splitComma s).map goTrimSpace).filter (fun p => p != "")).filter
          (fun p => ! pathExists p)) ≠ [] →
      validateAndGetFileList pathExists s =
        Except.error ((((splitComma s).map goTrimSpace).filter (fun p => p != "")).filter
          (fun p => ! pathExists p)) ∧
      ∀ response outcome,
        promptAndUploadAfterInput pathExists s response outcome =
          [UploadEvent.missingFilesErr
            ((((splitComma s).map goTrimSpace).filter (fun p => p != "")).filter
              (fun p => ! pathExists p))] ∧
        ∀ f, UploadEvent.attempt f ∉ promptAndUploadAfterInput pathExists s response outcome) ∧
    validateAndGetFileList exPathExists " a.txt, ,b.txt " = Except.error ["b.txt"] ∧
    promptAndUploadAfterInput exPathExists " a.txt, ,b.txt " exResponseOK (fun _ => true) =
      [UploadEvent.missingFilesErr ["b.txt"]] := by
  refine ⟨fun pathExists s hm => ?_, rfl, rfl⟩
  have hb : (! ((((splitComma s).map goTrimSpace).filter (fun p => p != "")).filter
      (fun p => ! pathExists p)).isEmpty) = true := by
    cases hL : (((splitComma s).map goTrimSpace).filter (fun p => p != "")).filter
        (fun p => ! pathExists p) with
    | nil => exact absurd hL hm
    | cons a l => rfl
  have hval : validateAndGetFileList pathExists s =
      Except.error ((((splitComma s).map goTrimSpace).filter (fun p => p != "")).filter
        (fun p => ! pathExists p)) := by
    simp only [validateAndGetFileList]
    rw [if_pos hb]
  have hs : s ≠ "" := by
    intro he
    subst he
    exact absurd rfl hm
  refine ⟨hval, fun response outcome => ?_⟩
  have hp : promptAndUploadAfterInput pathExists s response outcome =
      [UploadEvent.missingFilesErr
        ((((splitComma s).map goTrimSpace).filter (fun p => p != "")).filter
          (fun p => ! pathExists p))] := by
    simp only [promptAndUploadAfterInput]
    rw [if_neg hs, hval]
  refine ⟨hp, fun f => ?_⟩
  rw [hp]
  simp

theorem c5_validate_files_witness :
    validateAndGetFileList exPathExists "x.txt,y.txt" = Except.error ["x.txt", "y.txt"] ∧
    promptAndUploadAfterInput exPathExists "x.txt,y.txt" exResponseOK (fun _ => true) =
      [UploadEvent.missingFilesErr ["x.txt", "y.txt"]] ∧
    UploadEvent.attempt "x.txt" ∉
      promptAndUploadAfterInput exPathExists "x.txt,y.txt" exResponseOK (fun _ => true) := by
  have h := c5_validate_files.1 exPathExists "x.txt,y.txt" (by decide)
  have h2 := h.2 exResponseOK (fun _ => true)
  exact ⟨h.1, h2.1, h2.2 "x.txt"⟩

/-- `progressCharCount = 24`, the fixed bar width. -/
def progressCharCount : Nat := 24

/-- Go `strings.Repeat(string(c), n)` for a one-character string. -/
def repeatChar (c : Char) (n : Nat) : String :=
  String.mk (List.replicate n c)

/-- The progress-bar renderer `barArrow`: clamp the percentage into
`[0, 100]`, compute `pos := pct*width/100` (the operands are non-negative
after clamping, so `Nat` division coincides with Go's `int` division),
return the full bar without a head at `pos >= width`, and otherwise
`"[" + "="*pos + ">" + " "*(width-pos-1) + "]"`. -/
def barArrow (pct : Int) : String :=
  let width := progressCharCount
  let pct1 := if pct < 0 then 0 else pct
  let pct2 := if pct1 > 100 then 100 else pct1
  let pos : Nat := pct2.toNat * width / 100
  if pos ≥ width then "[" ++ repeatChar '=' width ++ "]"
  else "[" ++ (repeatChar '=' pos ++ ">") ++ repeatChar ' ' (width - pos - 1) ++ "]"

/-- Modelled from the claim's words (refinement comparison only): a
bracketed 24-character bar with `floor(p*24/100)` `'='`, a `'>'` head
unless the completed width reaches 24, and spaces for the remainder. -/
def claimBar (p : Nat) : String :=
  let filled := p * 24 / 100
  if filled ≥ 24 then "[" ++ String.mk (List.replicate 24 '=') ++ "]"
  else "[" ++ String.mk (List.replicate filled '=') ++ ">" ++
    String.mk (List.replicate (24 - filled - 1) ' ') ++ "]"

/-- C8: for every percentage p in 0..100 the rendered bar is the bracketed
24-character bar with floor(p*24/100) '=' characters, a single '>' head
(omitted at 100%), and spaces for the remainder; at 0% it is `[>` plus 23
spaces plus `]`, and at 100% it is `[` plus 24 `=` plus `]`. -/
theorem c8_bar_render :
    (∀ p : Nat, p ≤ 100 → barArrow (p : Int) = claimBar p) ∧
    barArrow 0 = "[>" ++ String.mk (List.replicate 23 ' ') ++ "]" ∧
    barArrow 100 = "[" ++ String.mk (List.replicate 24 '=') ++ "]" := by
  refine ⟨by decide, by decide, by decide⟩

theorem c8_bar_render_witness :
    barArrow (42 : Int) = claimBar 42 ∧ barArrow (100 : Int) = claimBar 100 := by
  exact ⟨c8_bar_render.1 42 (by decide), c8_bar_render.1 100 (by decide)⟩

theorem barArrow_neg (pct : Int) (h : pct < 0) : barArrow pct = barArrow 0 := by
  have h0 : ¬ (0 : Int) < 0 := by omega
  simp only [barArrow]
  rw [if_pos h, if_neg h0]

theorem barArrow_gt (pct : Int) (h : 100 < pct) : barArrow pct = barArrow 100 := by
  have h1 : ¬ pct < 0 := by omega
  have h3 : ¬ (100 : Int) < 0 := by omega
  have h4 : ¬ (100 : Int) > 100 := by omega
  simp only [barArrow]
  rw [if_neg h1, if_pos h, if_neg h3, if_neg h4]

theorem barArrow_length_le100 : ∀ n : Nat, n ≤ 100 → (barArrow (n : Int)).length = 26 := by
  decide

/-- C10: the renderer is total over all integers: the output always has
exactly 26 characters, and out-of-range percentages are clamped — below 0
it renders as 0, above 100 as 100. -/
theorem c10_bar_total (pct : Int) :
    (barArrow pct).length = 26 ∧
    (pct < 0 → barArrow pct = barArrow 0) ∧
    (100 < pct → barArrow pct = barArrow 100) := by
  refine ⟨?_, fun h => barArrow_neg pct h, fun h => barArrow_gt pct h⟩
  by_cases h1 : pct < 0
  · rw [barArrow_neg pct h1]
    decide
  · by_cases h2 : 100 < pct
    · rw [barArrow_gt pct h2]
      decide
    · push_neg at h1 h2
      have hn : pct = ((pct.toNat : Nat) : Int) := (Int.toNat_of_nonneg h1).symm
      have hle : pct.toNat ≤ 100 := by omega
      rw [hn]
      exact barArrow_length_le100 pct.toNat hle

theorem c10_bar_total_witness :
    (barArrow (-7)).length = 26 ∧
    barArrow (-7) = barArrow 0 ∧
    barArrow 205 = barArrow 100 := by
  exact ⟨(c10_bar_total (-7)).1, (c10_bar_total (-7)).2.1 (by decide),
    (c10_bar_total 205).2.2 (by decide)⟩

/-- The upload-eligibility allow-list test of `apiCommand.Handle` (and of
`PromptAndUploadFileIfNeeded`): the lower-cased API name is compared with
three literal keys.  The third literal is `"getuploadparamsfotemplate"`,
exactly as written in the source. -/
def isFileUploadAPI (apiName : String) : Bool :=
  apiName == "getuploadparamsforiso" ||
  apiName == "getuploadparamsforvolume" ||
  apiName == "getuploadparamsfotemplate"

/-- C6 (code bug): the allow-list misspells the template key, so the real
API name `getUploadParamsForTemplate` — whose lower-casing is
`getuploadparamsfortemplate` — never triggers the upload flow, while the
non-existent name `getuploadparamsfotemplate` would; the ISO and volume
names behave as claimed. -/
theorem c6_upload_allowlist_bug :
    goToLower "getUploadParamsForTemplate" = "getuploadparamsfortemplate" ∧
    isFileUploadAPI (goToLower "getUploadParamsForTemplate") = false ∧
    isFileUploadAPI "getuploadparamsfotemplate" = true ∧
    isFileUploadAPI (goToLower "getUploadParamsForIso") = true ∧
    isFileUploadAPI (goToLower "getUploadParamsForVolume") = true := by
  refine ⟨by decide, by decide, by decide, by decide, by decide⟩

/-- State of the spinner controller: the `activeSpinners` list of handles
(spinner identities) and, for each handle, whether its animation is
currently running (`spinner.Active()`). -/
structure SpinnerCtl where
  activeSpinners : List Nat
  running : Nat → Bool

/-- `Config.StartSpinner`: create a running spinner and append its handle
to the active list. -/
def startSpinner (c : SpinnerCtl) (id : Nat) : SpinnerCtl :=
  ⟨c.activeSpinners ++ [id], fun s => if s = id then true else c.running s⟩

/-- `Config.StopSpinner`: stop the handle and remove its first occurrence
from the active list. -/
def stopSpinner (c : SpinnerCtl) (id : Nat) : SpinnerCtl :=
  ⟨c.activeSpinners.erase id, fun s => if s = id then false else c.running s⟩

/-- `Config.PauseActiveSpinners`: `count := len(c.activeSpinners)`, then
`Stop` every handle in the list that is active, without removing any;
return `count`. -/
def pauseActiveSpinners (c : SpinnerCtl) : SpinnerCtl × Nat :=
  (⟨c.activeSpinners, fun s => if s ∈ c.activeSpinners then false else c.running s⟩,
   c.activeSpinners.length)

/-- The handles on which `PauseActiveSpinners` invokes `Stop`: the members
of the list that are running. -/
def stoppedByPause (c : SpinnerCtl) : List Nat :=
  c.activeSpinners.filter (fun s => c.running s)

/-- `Config.ResumePausedSpinners`: `Start` every handle in the list that is
not running. -/
def resumePausedSpinners (c : SpinnerCtl) : SpinnerCtl :=
  ⟨c.activeSpinners, fun s => if s ∈ c.activeSpinners then true else c.running s⟩

/-- The handles on which `ResumePausedSpinners` invokes `Start`: the
members of the list that are not running. -/
def startedByResume (c : SpinnerCtl) : List Nat :=
  c.activeSpinners.filter (fun s => ! c.running s)

/-- Controller state with one registered handle whose animation is not
running. -/
def exCtlIdle : SpinnerCtl := ⟨[1], fun _ => false⟩

/-- Controller state with handles 1 (running) and 2 (not running). -/
def exCtlMixed : SpinnerCtl := ⟨[1, 2], fun s => s == 1⟩

/-- C9 counterexample: with one registered handle that is not running,
`PauseActiveSpinners` stops no handle yet returns 1 — the return value is
the size of the active set, not the count of handles it paused. -/
theorem c9_counterexample :
    (pauseActiveSpinners exCtlIdle).2 = 1 ∧
    stoppedByPause exCtlIdle = [] ∧
    (pauseActiveSpinners exCtlIdle).2 ≠ (stoppedByPause exCtlIdle).length := by
  refine ⟨rfl, rfl, by decide⟩

/-- C9 (amended): `pause_all` halts every currently-running handle without
removing any from the active set and returns the size of the active set
(which can exceed the number of handles actually paused); `resume_all`
restarts exactly the set members that are not running; a pause immediately
followed by a resume leaves the set membership unchanged and starts only
handles that are in the set. -/
theorem c9_pause_resume_amended (c : SpinnerCtl) :
    (pauseActiveSpinners c).1.activeSpinners = c.activeSpinners ∧
    (pauseActiveSpinners c).2 = c.activeSpinners.length ∧
    (∀ id, id ∈ c.activeSpinners → (pauseActiveSpinners c).1.running id = false) ∧
    (∀ id, id ∉ c.activeSpinners → (pauseActiveSpinners c).1.running id = c.running id) ∧
    stoppedByPause c = c.activeSpinners.filter (fun s => c.running s) ∧
    (resumePausedSpinners (pauseActiveSpinners c).1).activeSpinners = c.activeSpinners ∧
    (∀ id, id ∈ startedByResume (pauseActiveSpinners c).1 → id ∈ c.activeSpinners) ∧
    (∀ id, id ∈ c.activeSpinners →
      (resumePausedSpinners (pauseActiveSpinners c).1).running id = true) := by
  refine ⟨rfl, rfl, fun id hid => ?_, fun id hid => ?_, rfl, rfl,
    fun id hid => ?_, fun id hid => ?_⟩
  · show (if id ∈ c.activeSpinners then false else c.running id) = false
    rw [if_pos hid]
  · show (if id ∈ c.activeSpinners then false else c.running id) = c.running id
    rw [if_neg hid]
  · exact List.mem_of_mem_filter hid
  · show (if id ∈ c.activeSpinners then true
      else (pauseActiveSpinners c).1.running id) = true
    rw [if_pos hid]

theorem c9_pause_resume_witness :
    (pauseActiveSpinners exCtlMixed).1.activeSpinners = [1, 2] ∧
    (pauseActiveSpinners exCtlMixed).2 = 2 ∧
    (pauseActiveSpinners exCtlMixed).1.running 1 = false ∧
    (pauseActiveSpinners exCtlMixed).1.running 3 = exCtlMixed.running 3 ∧
    (resumePausedSpinners (pauseActiveSpinners exCtlMixed).1).running 2 = true := by
  have h := c9_pause_resume_amended exCtlMixed
  exact ⟨h.1, h.2.1, h.2.2.1 1 (by decide), h.2.2.2.1 3 (by decide),
    h.2.2.2.2.2.2.2 2 (by decide)⟩
